import Mathlib

/-!
Verification of the unison-protocol packet codec and network layer.

This file shallowly embeds the Rust sources of the repository
(src/packet/serialization.rs, src/packet/header.rs, src/packet/flags.rs,
src/packet/mod.rs, src/network/server.rs, src/network/client.rs,
src/network/quic.rs) into Lean and proves the testable properties of the
specification against that embedding.

Bytes are modelled as `List Nat` with each element `< 256`; machine
integers are `Nat` with explicit `% 2 ^ w` at the points where the Rust
code performs an `as` cast.  External collaborators (the zstd compressor
and the JSON parser) are taken as function parameters, with their
documented properties as explicit hypotheses.
-/

namespace Unison

/-! ## CRC32 (crc32fast::Hasher: IEEE, reflected, init and xorout 0xFFFFFFFF) -/

/-- The reflected CRC-32 (IEEE) polynomial used by crc32fast. -/
def CRC_POLY : Nat := 0xEDB88320

/-- One bit step of the reflected CRC-32 computation. -/
def crcRound (s : Nat) : Nat :=
  (s / 2) ^^^ (if s % 2 = 1 then CRC_POLY else 0)

/-- Iterate `crcRound` a given number of times. -/
def crcBits : Nat → Nat → Nat
  | 0, s => s
  | k + 1, s => crcBits k (crcRound s)

/-- Process one input byte: xor it into the state and run 8 bit rounds. -/
def crcByte (s b : Nat) : Nat := crcBits 8 (s ^^^ b)

/-- Process a byte sequence from a given 32-bit state. -/
def crcUpdate (s : Nat) (data : List Nat) : Nat := data.foldl crcByte s

/-- CRC32 checksum as computed by `PacketSerializer::calculate_checksum`:
crc32fast with initial state and final xor 0xFFFFFFFF. -/
def crc32 (data : List Nat) : Nat := crcUpdate 0xFFFFFFFF data ^^^ 0xFFFFFFFF

/-- Flip bit `k` of the byte at index `i` of a byte list. -/
def flipBit (data : List Nat) (i k : Nat) : List Nat :=
  data.set i (data.getD i 0 ^^^ 2 ^ k)

/-! ## Little-endian byte encoding

rkyv archives the header fields as little-endian machine integers in
declaration order; the archived header is exactly 48 bytes
(`test_header_size` in src/packet/header.rs). -/

/-- Encode `n` as `w` little-endian bytes. -/
def natToLe : Nat → Nat → List Nat
  | 0, _ => []
  | w + 1, n => n % 256 :: natToLe w (n / 256)

/-- Decode a little-endian byte list. -/
def leToNat : List Nat → Nat
  | [] => 0
  | b :: bs => b + 256 * leToNat bs

/-! ## Packet header (src/packet/header.rs) -/

/-- `UnisonPacketHeader`: the fixed 48-byte packet header.  The 8-byte
padding block is modelled as its little-endian value. -/
structure UnisonPacketHeader where
  version : Nat
  packet_type : Nat
  flags : Nat
  payload_length : Nat
  compressed_length : Nat
  checksum : Nat
  sequence_number : Nat
  timestamp : Nat
  stream_id : Nat
  padding : Nat
deriving DecidableEq, Repr

/-- `UnisonPacketHeader::CURRENT_VERSION` (0x01). -/
def CURRENT_VERSION : Nat := 1

/-- `PacketFlags::COMPRESSED` (bit 0). -/
def FLAG_COMPRESSED : Nat := 1

/-- Fields fit their machine-integer widths (u8/u16/u32/u64). -/
def UnisonPacketHeader.Wellformed (h : UnisonPacketHeader) : Prop :=
  h.version < 2 ^ 8 ∧ h.packet_type < 2 ^ 8 ∧ h.flags < 2 ^ 16 ∧
  h.payload_length < 2 ^ 32 ∧ h.compressed_length < 2 ^ 32 ∧
  h.checksum < 2 ^ 32 ∧ h.sequence_number < 2 ^ 64 ∧
  h.timestamp < 2 ^ 64 ∧ h.stream_id < 2 ^ 64 ∧ h.padding < 2 ^ 64

/-- `UnisonPacketHeader::is_compatible`. -/
def UnisonPacketHeader.isCompatible (h : UnisonPacketHeader) : Bool :=
  h.version == CURRENT_VERSION

/-- `UnisonPacketHeader::has_checksum`. -/
def UnisonPacketHeader.hasChecksum (h : UnisonPacketHeader) : Bool :=
  h.checksum != 0

/-- `PacketFlags::is_compressed` applied to the flags field
(`self.0 & COMPRESSED != 0`). -/
def flagsCompressed (flags : Nat) : Bool :=
  flags &&& FLAG_COMPRESSED != 0

/-- `UnisonPacketHeader::is_compressed`
(`compressed_length > 0 && flags().is_compressed()`). -/
def UnisonPacketHeader.isCompressed (h : UnisonPacketHeader) : Bool :=
  decide (h.compressed_length > 0) && flagsCompressed h.flags

/-- `UnisonPacketHeader::actual_payload_size`. -/
def UnisonPacketHeader.actualPayloadSize (h : UnisonPacketHeader) : Nat :=
  if h.compressed_length > 0 then h.compressed_length else h.payload_length

/-- `PacketSerializer::serialize_header`: rkyv archives the header fields
little-endian in declaration order into exactly 48 bytes. -/
def serializeHeader (h : UnisonPacketHeader) : List Nat :=
  natToLe 1 h.version ++ (natToLe 1 h.packet_type ++ (natToLe 2 h.flags ++
  (natToLe 4 h.payload_length ++ (natToLe 4 h.compressed_length ++
  (natToLe 4 h.checksum ++ (natToLe 8 h.sequence_number ++
  (natToLe 8 h.timestamp ++ (natToLe 8 h.stream_id ++ natToLe 8 h.padding))))))))

/-- `PacketDeserializer::parse_header`: validate and read back a 48-byte
header.  Every 48-byte buffer is a valid archived header (all fields are
plain integers), so validation only checks the model-level byte bounds. -/
def parseHeader (bs : List Nat) : Option UnisonPacketHeader :=
  if bs.length = 48 ∧ bs.all (· < 256) then
    let r1 := bs.drop 1
    let r2 := r1.drop 1
    let r3 := r2.drop 2
    let r4 := r3.drop 4
    let r5 := r4.drop 4
    let r6 := r5.drop 4
    let r7 := r6.drop 8
    let r8 := r7.drop 8
    let r9 := r8.drop 8
    some
      { version := leToNat (bs.take 1)
        packet_type := leToNat (r1.take 1)
        flags := leToNat (r2.take 2)
        payload_length := leToNat (r3.take 4)
        compressed_length := leToNat (r4.take 4)
        checksum := leToNat (r5.take 4)
        sequence_number := leToNat (r6.take 8)
        timestamp := leToNat (r7.take 8)
        stream_id := leToNat (r8.take 8)
        padding := leToNat (r9.take 8) }
  else none

/-! ## Packet serialization (src/packet/serialization.rs) -/

/-- `COMPRESSION_THRESHOLD` (2048 bytes). -/
def COMPRESSION_THRESHOLD : Nat := 2048

/-- `MAX_PACKET_SIZE` (16 MB). -/
def MAX_PACKET_SIZE : Nat := 16 * 1024 * 1024

/-- `SerializationError` from src/packet/serialization.rs. -/
inductive SerializationError where
  | Payload (msg : String)
  | CompressionFailed (msg : String)
  | DecompressionFailed (msg : String)
  | PacketTooLarge (size max_size : Nat)
  | InvalidHeader
  | ChecksumMismatch (expected actual : Nat)
  | IncompatibleVersion (version : Nat)
  | SerializationFailed (msg : String)
  | DeserializationFailed (msg : String)
deriving DecidableEq, Repr

/-- `PacketSerializer::serialize`.  The zstd compressor is a function
parameter (external crate).  The Rust function mutates the header through
`&mut` and returns the packet bytes; the model returns the mutated header
together with the result, since the mutation happens before the final
size check.  `as u32` casts are `% 2 ^ 32`. -/
def serialize (compress : List Nat → List Nat) (header : UnisonPacketHeader)
    (payload_bytes : List Nat) :
    UnisonPacketHeader × Except SerializationError (List Nat) :=
  let payload_size := payload_bytes.length
  let h1 : UnisonPacketHeader := { header with payload_length := payload_size % 2 ^ 32 }
  let step : List Nat × Bool × UnisonPacketHeader :=
    if payload_size ≥ COMPRESSION_THRESHOLD then
      let compressed := compress payload_bytes
      if compressed.length < payload_size then
        (compressed, true, { h1 with compressed_length := compressed.length % 2 ^ 32 })
      else
        (payload_bytes, false, { h1 with compressed_length := 0 })
    else
      (payload_bytes, false, { h1 with compressed_length := 0 })
  let final_payload := step.1
  let is_compressed := step.2.1
  let h2 := step.2.2
  let h3 : UnisonPacketHeader :=
    { h2 with flags := if is_compressed then h2.flags ||| FLAG_COMPRESSED
                       else h2.flags &&& (65535 - FLAG_COMPRESSED) }
  let h4 : UnisonPacketHeader :=
    if h3.checksum ≠ 0 then { h3 with checksum := crc32 final_payload } else h3
  let header_bytes := serializeHeader h4
  let total_size := header_bytes.length + final_payload.length
  if total_size > MAX_PACKET_SIZE then
    (h4, .error (.PacketTooLarge total_size MAX_PACKET_SIZE))
  else
    (h4, .ok (header_bytes ++ final_payload))

/-- `PacketDeserializer::deserialize_header`. -/
def deserializeHeader (bytes : List Nat) :
    Except SerializationError (UnisonPacketHeader × List Nat) :=
  if bytes.length < 48 then .error .InvalidHeader
  else
    match parseHeader (bytes.take 48) with
    | none => .error (.DeserializationFailed "check_archived_root")
    | some header =>
      if ¬ header.isCompatible then .error (.IncompatibleVersion header.version)
      else .ok (header, bytes.drop 48)

/-- `PacketDeserializer::deserialize_payload`.  The zstd decompressor is a
function parameter (external crate); the payload type is raw bytes, so the
final `T::from_bytes` is the identity on the decompressed bytes. -/
def deserializePayload (decompress : List Nat → Option (List Nat))
    (header : UnisonPacketHeader) (payload_bytes : List Nat) :
    Except SerializationError (List Nat) :=
  if payload_bytes.length ≠ header.actualPayloadSize then .error .InvalidHeader
  else if header.hasChecksum && (crc32 payload_bytes != header.checksum) then
    .error (.ChecksumMismatch header.checksum (crc32 payload_bytes))
  else if header.isCompressed then
    match decompress payload_bytes with
    | none => .error (.DecompressionFailed "zstd")
    | some d => .ok d
  else .ok payload_bytes

/-- Modelled from the spec: `PacketConfig` lives in src/packet/config.rs,
which is declared by src/packet/mod.rs but absent from the sources; per the
spec the default maximum payload size is 16 MiB. -/
def DEFAULT_MAX_PAYLOAD_SIZE : Nat := 16 * 1024 * 1024

/-- `UnisonPacket::from_bytes` (src/packet/mod.rs): validate the header,
re-check the version, and check only the total buffer length against the
configured maximum payload size. -/
def fromBytes (bytes : List Nat) : Except SerializationError (List Nat) :=
  match deserializeHeader bytes with
  | .error e => .error e
  | .ok (header, _) =>
    if ¬ header.isCompatible then .error (.IncompatibleVersion header.version)
    else if bytes.length > DEFAULT_MAX_PAYLOAD_SIZE then
      .error (.PacketTooLarge bytes.length DEFAULT_MAX_PAYLOAD_SIZE)
    else .ok bytes

/-- The header written by `serialize` on the compressed branch. -/
def compressedHeader (compress : List Nat → List Nat)
    (hdr : UnisonPacketHeader) (p : List Nat) : UnisonPacketHeader :=
  { hdr with
    payload_length := p.length % 2 ^ 32
    compressed_length := (compress p).length % 2 ^ 32
    flags := hdr.flags ||| FLAG_COMPRESSED
    checksum := if hdr.checksum ≠ 0 then crc32 (compress p) else hdr.checksum }

/-- The header written by `serialize` on the uncompressed branch. -/
def uncompressedHeader (hdr : UnisonPacketHeader) (p : List Nat) :
    UnisonPacketHeader :=
  { hdr with
    payload_length := p.length % 2 ^ 32
    compressed_length := 0
    flags := hdr.flags &&& (65535 - FLAG_COMPRESSED)
    checksum := if hdr.checksum ≠ 0 then crc32 p else hdr.checksum }

/-- A header with a non-current version (2): `serialize` accepts it but
`deserialize_header` rejects the produced packet. -/
def c1cexHeader : UnisonPacketHeader :=
  ⟨2, 0, 0, 0, 0, 0, 0, 0, 0, 0⟩

/-- The wire bytes produced by serializing `c1cexHeader` with payload [1]. -/
def c1cexWire : List Nat :=
  match (serialize id c1cexHeader [1]).2 with
  | .ok w => w
  | .error _ => []

/-- A current-version all-zero header used as a concrete round-trip input. -/
def c1witHeader : UnisonPacketHeader :=
  ⟨1, 0, 0, 0, 0, 0, 0, 0, 0, 0⟩

/-- The wire bytes of the empty-payload packet over `c1witHeader`. -/
def c1witWire : List Nat := serializeHeader c1witHeader

/-- A current-version zero header for the C2 truncation counterexample. -/
def c2cexHeader : UnisonPacketHeader :=
  ⟨1, 0, 0, 0, 0, 0, 0, 0, 0, 0⟩

/-- A current-version zero header for the C2 witness. -/
def c2witHeader : UnisonPacketHeader :=
  ⟨1, 0, 0, 0, 0, 0, 0, 0, 0, 0⟩

/-- Concrete threshold-sized payload for the C2 witness. -/
def c2witPayload : List Nat := List.replicate 2048 7

/-- Boolean success test for Except results. -/
def exceptIsOk {ε α : Type} : Except ε α → Bool
  | .ok _ => true
  | .error _ => false

/-- A header with version 2 for the C3 witness. -/
def c3witHeader : UnisonPacketHeader :=
  ⟨2, 0, 0, 0, 0, 0, 0, 0, 0, 0⟩

/-- 48-byte buffer whose parsed header has version 2. -/
def c3witBytes : List Nat := serializeHeader c3witHeader

/-- A current-version header whose payload_length field exceeds the
16 MiB maximum. -/
def c5cexHeader : UnisonPacketHeader :=
  ⟨1, 0, 0, 16 * 1024 * 1024 + 1, 0, 0, 0, 0, 0, 0⟩

/-- The 48-byte buffer carrying `c5cexHeader` and no payload. -/
def c5cexBytes : List Nat := serializeHeader c5cexHeader

/-- A current-version zero header for the C5 witness. -/
def c5witHeader : UnisonPacketHeader :=
  ⟨1, 0, 0, 0, 0, 0, 0, 0, 0, 0⟩

/-- A header with the checksum field enabled (nonzero) for the C4 witness. -/
def c4witHeader : UnisonPacketHeader :=
  ⟨1, 0, 0, 0, 0, 1, 0, 0, 0, 0⟩

/-- The result of serializing the [1, 2, 3] payload under `c4witHeader`. -/
def c4witResult : UnisonPacketHeader × Except SerializationError (List Nat) :=
  serialize (fun l => 0 :: l) c4witHeader [1, 2, 3]

/-- The concrete wire bytes of the C4 witness packet. -/
def c4witWire : List Nat :=
  match c4witResult.2 with
  | .ok w => w
  | .error _ => []

/-! ## Network layer (src/network/mod.rs, server.rs, client.rs, quic.rs) -/

/-- A minimal model of `serde_json::Value`. -/
inductive Json where
  | null
  | bool (b : Bool)
  | num (n : Int)
  | str (s : String)
  | arr (items : List Json)
  | obj (fields : List (String × Json))

/-- `serde_json::Value::get` on an object followed by `as_str`. -/
def Json.getStr (j : Json) (key : String) : Option String :=
  match j with
  | .obj fields =>
    match fields.lookup key with
    | some (.str s) => some s
    | _ => none
  | _ => none

/-- `payload.get("message").and_then(as_str).unwrap_or(default)` as used by
the client when surfacing Error replies. -/
def jsonMessageOr (default : String) (j : Json) : String :=
  match j.getStr "message" with
  | some s => s
  | none => default

/-- `NetworkError` from src/network/mod.rs. -/
inductive NetworkError where
  | Connection (msg : String)
  | Protocol (msg : String)
  | Serialization (msg : String)
  | Quic (msg : String)
  | Timeout
  | HandlerNotFound (method : String)

/-- The `Display` rendering of `NetworkError` (thiserror attributes). -/
def NetworkError.display : NetworkError → String
  | .Connection s => "Connection error: " ++ s
  | .Protocol s => "Protocol error: " ++ s
  | .Serialization s => "Serialization error: " ++ s
  | .Quic s => "QUIC error: " ++ s
  | .Timeout => "Timeout error"
  | .HandlerNotFound m => "Handler not found for method: " ++ m

/-- `MessageType` from src/network/mod.rs. -/
inductive MessageType where
  | Request
  | Response
  | Stream
  | StreamData
  | StreamEnd
  | StreamError
  | BidirectionalStream
  | StreamSend
  | StreamReceive
  | Error
deriving DecidableEq, Repr

/-- `ProtocolMessage` from src/network/mod.rs. -/
structure ProtocolMessage where
  id : Nat
  method : String
  msg_type : MessageType
  payload : Json

/-- A handler registered through `register_handler`
(`Fn(Value) → Result<Value, NetworkError>`). -/
def UnisonHandler : Type := Json → Except NetworkError Json

/-- A handler registered through `register_call_handler`
(async `Fn(Value) → anyhow::Result<Value>`; anyhow errors modelled as
their rendered strings). -/
def CallHandler : Type := Json → Except String Json

/-- `HashMap::insert`: replace the binding if the key is present,
otherwise append it. -/
def mapInsert {α : Type} : List (String × α) → String → α → List (String × α)
  | [], k, v => [(k, v)]
  | (k₂, v₂) :: rest, k, v =>
    if k₂ = k then (k, v) :: rest else (k₂, v₂) :: mapInsert rest k v

/-- The handler-holding state of `ProtocolServer`.  `pending_unison`
models inserts that `register_handler` has spawned onto the executor
(`tokio::spawn`) but that have not yet run; only `unison_handlers` and
`call_handlers` are visible to dispatch. -/
structure ServerState where
  call_handlers : List (String × CallHandler)
  unison_handlers : List (String × UnisonHandler)
  pending_unison : List (String × UnisonHandler)

/-- A `ProtocolServer::new()` with no registered handlers. -/
def emptyServer : ServerState := ⟨[], [], []⟩

/-- `UnisonServerExt::register_handler` for `ProtocolServer`: the insert
into the shared map is spawned as a separate task and is NOT applied to
the visible map before returning. -/
def registerHandler (s : ServerState) (m : String) (h : UnisonHandler) : ServerState :=
  { s with pending_unison := s.pending_unison ++ [(m, h)] }

/-- The spawned registration tasks run: all pending inserts are applied
to the visible map in spawn order. -/
def applyPending (s : ServerState) : ServerState :=
  { s with
    unison_handlers :=
      s.pending_unison.foldl (fun acc q => mapInsert acc q.1 q.2) s.unison_handlers
    pending_unison := [] }

/-- Registration applied directly to the visible map, as it would be if
it had happened before the server was bound. -/
def preBindRegister (s : ServerState) (m : String) (h : UnisonHandler) : ServerState :=
  { s with unison_handlers := mapInsert s.unison_handlers m h }

/-- `ProtocolServer::handle_call`: try `unison_handlers` first, fall back
to `call_handlers`, otherwise report `Method not found`. -/
def handleCall (s : ServerState) (method : String) (payload : Json) :
    Except String Json :=
  match s.unison_handlers.lookup method with
  | some h =>
    match h payload with
    | .ok r => .ok r
    | .error e => .error ("Handler error: " ++ e.display)
  | none =>
    match s.call_handlers.lookup method with
    | some h => h payload
    | none => .error ("Method not found: " ++ method)

/-- The set of handlers `handle_call` invokes for a given method: the
method's own handler when registered, nothing otherwise. -/
def handleCallInvoked (s : ServerState) (method : String) : List String :=
  match s.unison_handlers.lookup method with
  | some _ => [method]
  | none =>
    match s.call_handlers.lookup method with
    | some _ => [method]
    | none => []

/-- The Request branch of `handle_connection` (src/network/quic.rs): call
the server, then reply on the same stream with a Response carrying the
handler result, or an Error carrying `\x7b "message": <text> \x7d`; either
way the reply keeps the request id and method. -/
def requestReply (s : ServerState) (req : ProtocolMessage) : ProtocolMessage :=
  match handleCall s req.method req.payload with
  | .ok payload => { id := req.id, method := req.method, msg_type := .Response, payload }
  | .error e =>
    { id := req.id, method := req.method, msg_type := .Error,
      payload := .obj [("message", .str e)] }

/-- `ProtocolClient::call` (UnisonClient impl), reply interpretation: an
Error reply surfaces as `NetworkError::Protocol` with the text taken from
the payload field "message" (default "Unknown error"); any other reply
returns its payload. -/
def clientInterpretReply (response : ProtocolMessage) : Except NetworkError Json :=
  if response.msg_type = .Error then
    .error (.Protocol (jsonMessageOr "Unknown error" response.payload))
  else .ok response.payload

/-- `generate_request_id`: a fetch-add on a global counter; a session of
calls starting at counter value `c0` stamps ids c0, c0+1, …. -/
def buildRequests (c0 : Nat) : List (String × Json) → List ProtocolMessage
  | [] => []
  | (m, p) :: rest =>
    { id := c0, method := m, msg_type := .Request, payload := p } ::
      buildRequests (c0 + 1) rest

/-- The state of a `UnisonStream` (src/network/quic.rs): the two QUIC
half-streams behind `Option` (taken on close) and the atomic
`is_active` flag. -/
structure UnisonStreamState where
  stream_id : Nat
  method : String
  send_stream : Option Unit
  recv_stream : Option Unit
  is_active : Bool

/-- `UnisonStream::is_active`. -/
def streamIsActive (s : UnisonStreamState) : Bool := s.is_active

/-- Close the receive half (second part of `UnisonStream::close`);
`stopOk` is the result of the external `RecvStream::stop`. -/
def closeRecv (s : UnisonStreamState) (stopOk : Bool) :
    Except NetworkError Unit × UnisonStreamState :=
  match s.recv_stream with
  | some _ =>
    let s₁ := { s with recv_stream := none }
    if stopOk then (.ok (), s₁)
    else (.error (.Quic "Failed to close receive stream"), s₁)
  | none => (.ok (), s)

/-- `UnisonStream::close`: clear the active flag, take and finish the
send half, then take and stop the receive half.  `finishOk` / `stopOk`
are the results of the external quinn calls. -/
def streamClose (s : UnisonStreamState) (finishOk stopOk : Bool) :
    Except NetworkError Unit × UnisonStreamState :=
  let s₀ := { s with is_active := false }
  match s₀.send_stream with
  | some _ =>
    let s₁ := { s₀ with send_stream := none }
    if finishOk then closeRecv s₁ stopOk
    else (.error (.Quic "Failed to close send stream"), s₁)
  | none => closeRecv s₀ stopOk

/-- `UnisonStream::send`: fail on an inactive stream, then write the
framed message on the send half (`writeOk` is the external write
result). -/
def streamSend (s : UnisonStreamState) (data : Json) (writeOk : Bool) :
    Except NetworkError Unit × UnisonStreamState :=
  if streamIsActive s = false then
    (.error (.Connection "Stream is not active"), s)
  else
    match s.send_stream with
    | some _ => if writeOk then (.ok (), s) else (.error (.Quic "Failed to send data"), s)
    | none => (.error (.Connection "Send stream is closed"), s)

/-- `UnisonStream::receive`: fail on an inactive stream, then read one
message from the receive half.  `readResult` is the outcome of the
external `read_to_end` and `parse` the external JSON decoder. -/
def streamReceive (s : UnisonStreamState) (readResult : Option (List Nat))
    (parse : List Nat → Option ProtocolMessage) :
    Except NetworkError Json × UnisonStreamState :=
  if streamIsActive s = false then
    (.error (.Connection "Stream is not active"), s)
  else
    match s.recv_stream with
    | none => (.error (.Connection "Receive stream is closed"), s)
    | some _ =>
      match readResult with
      | none => (.error (.Quic "Failed to receive data"), s)
      | some data =>
        if data.isEmpty then
          (.error (.Connection "Stream ended"), { s with is_active := false })
        else
          match parse data with
          | none => (.error (.Serialization "invalid message"), s)
          | some message =>
            match message.msg_type with
            | .StreamReceive => (.ok message.payload, s)
            | .StreamData => (.ok message.payload, s)
            | .StreamEnd =>
              (.error (.Connection "Stream ended by peer"), { s with is_active := false })
            | .StreamError =>
              (.error (.Protocol "Stream error"), { s with is_active := false })
            | _ => (.error (.Protocol "Unexpected message type"), s)

/-- The client state visible to `is_connected`: whether the underlying
QUIC connection is present and not closed. -/
structure ProtocolClientState where
  transport_connected : Bool

/-- `ProtocolClient::is_connected` (UnisonClient impl): returns `false`
unconditionally (src/network/client.rs). -/
def protocolClientIsConnected (_ : ProtocolClientState) : Bool := false

/-- `QuicClient::is_connected` (src/network/quic.rs): reports the actual
transport state. -/
def quicClientIsConnected (s : ProtocolClientState) : Bool := s.transport_connected

/-- A concrete open duplex stream for the C7 witness. -/
def c7witStream : UnisonStreamState :=
  ⟨1, "chat", some (), some (), true⟩

theorem crcRound_lt {s : Nat} (h : s < 2 ^ 32) : crcRound s < 2 ^ 32 := by
  unfold crcRound
  apply Nat.xor_lt_two_pow
  · exact Nat.lt_of_le_of_lt (Nat.div_le_self s 2) h
  · split <;> simp [CRC_POLY]

theorem crcRound_inj {s t : Nat} (hs : s < 2 ^ 32) (ht : t < 2 ^ 32)
    (h : crcRound s = crcRound t) : s = t := by
  unfold crcRound at h
  have hs2 : s / 2 < 2 ^ 31 := by omega
  have ht2 : t / 2 < 2 ^ 31 := by omega
  have hsb : (s / 2).testBit 31 = false := Nat.testBit_lt_two_pow hs2
  have htb : (t / 2).testBit 31 = false := Nat.testBit_lt_two_pow ht2
  rcases Nat.mod_two_eq_zero_or_one s with h1 | h1 <;>
    rcases Nat.mod_two_eq_zero_or_one t with h2 | h2
  · simp only [h1, h2] at h
    norm_num at h
    omega
  · simp only [h1, h2] at h
    norm_num at h
    have := congrArg (fun x => x.testBit 31) h
    simp only [Nat.testBit_xor, hsb, htb] at this
    have hpb : Nat.testBit CRC_POLY 31 = true := by decide
    simp [hpb] at this
  · simp only [h1, h2] at h
    norm_num at h
    have := congrArg (fun x => x.testBit 31) h
    simp only [Nat.testBit_xor, hsb, htb] at this
    have hpb : Nat.testBit CRC_POLY 31 = true := by decide
    simp [hpb] at this
  · simp only [h1, h2] at h
    norm_num at h
    omega

theorem crcBits_lt : ∀ (k : Nat) {s : Nat}, s < 2 ^ 32 → crcBits k s < 2 ^ 32
  | 0, _, h => h
  | k + 1, _, h => crcBits_lt k (crcRound_lt h)

theorem crcBits_inj : ∀ (k : Nat) {s t : Nat}, s < 2 ^ 32 → t < 2 ^ 32 →
    crcBits k s = crcBits k t → s = t
  | 0, _, _, _, _, h => h
  | k + 1, _, _, hs, ht, h =>
    crcRound_inj hs ht (crcBits_inj k (crcRound_lt hs) (crcRound_lt ht) h)

theorem crcByte_lt {s b : Nat} (hs : s < 2 ^ 32) (hb : b < 2 ^ 32) :
    crcByte s b < 2 ^ 32 :=
  crcBits_lt 8 (Nat.xor_lt_two_pow hs hb)

theorem crcByte_inj_state {s t b : Nat} (hs : s < 2 ^ 32) (ht : t < 2 ^ 32)
    (hb : b < 2 ^ 32) (h : crcByte s b = crcByte t b) : s = t := by
  have := crcBits_inj 8 (Nat.xor_lt_two_pow hs hb) (Nat.xor_lt_two_pow ht hb) h
  exact Nat.xor_left_inj.mp this

theorem crcByte_inj_byte {s b b' : Nat} (hs : s < 2 ^ 32) (hb : b < 2 ^ 32)
    (hb' : b' < 2 ^ 32) (h : crcByte s b = crcByte s b') : b = b' := by
  have := crcBits_inj 8 (Nat.xor_lt_two_pow hs hb) (Nat.xor_lt_two_pow hs hb') h
  exact Nat.xor_right_inj.mp this

theorem crcUpdate_lt : ∀ (data : List Nat) {s : Nat}, s < 2 ^ 32 →
    (∀ x ∈ data, x < 2 ^ 32) → crcUpdate s data < 2 ^ 32
  | [], _, hs, _ => hs
  | b :: bs, _, hs, hd => by
    have hb : b < 2 ^ 32 := hd b (List.mem_cons_self b bs)
    exact crcUpdate_lt bs (crcByte_lt hs hb)
      (fun x hx => hd x (List.mem_cons_of_mem b hx))

theorem crcUpdate_state_inj : ∀ (data : List Nat) {s t : Nat}, s < 2 ^ 32 →
    t < 2 ^ 32 → (∀ x ∈ data, x < 2 ^ 32) →
    crcUpdate s data = crcUpdate t data → s = t
  | [], _, _, hs, ht, _, h => h
  | b :: bs, _, _, hs, ht, hd, h => by
    have hb : b < 2 ^ 32 := hd b (List.mem_cons_self b bs)
    have := crcUpdate_state_inj bs (crcByte_lt hs hb) (crcByte_lt ht hb)
      (fun x hx => hd x (List.mem_cons_of_mem b hx)) h
    exact crcByte_inj_state hs ht hb this

theorem flipBit_length (data : List Nat) (i k : Nat) :
    (flipBit data i k).length = data.length := by
  simp [flipBit]

theorem crcUpdate_flipBit_ne : ∀ (data : List Nat) (i : Nat) {k s : Nat},
    s < 2 ^ 32 → (∀ x ∈ data, x < 2 ^ 32) → i < data.length → k < 32 →
    crcUpdate s (flipBit data i k) ≠ crcUpdate s data
  | [], i, _, _, _, _, hi, _ => by simp at hi
  | b :: bs, 0, k, s, hs, hd, _, hk => by
    have hb : b < 2 ^ 32 := hd b (List.mem_cons_self b bs)
    have hbs : ∀ x ∈ bs, x < 2 ^ 32 := fun x hx => hd x (List.mem_cons_of_mem b hx)
    have hflip : b ^^^ 2 ^ k ≠ b := by
      intro hcontra
      have : b ^^^ 2 ^ k = b ^^^ 0 := by simpa using hcontra
      have := Nat.xor_right_inj.mp this
      exact absurd this (Nat.pos_iff_ne_zero.mp (Nat.pos_pow_of_pos k (by norm_num)))
    have hb2 : b ^^^ 2 ^ k < 2 ^ 32 :=
      Nat.xor_lt_two_pow hb (Nat.pow_lt_pow_right (by norm_num) hk)
    intro hcontra
    simp only [flipBit, List.set_cons_zero, List.getD_cons_zero] at hcontra
    have heq : crcUpdate (crcByte s (b ^^^ 2 ^ k)) bs = crcUpdate (crcByte s b) bs := by
      simpa [crcUpdate] using hcontra
    have := crcUpdate_state_inj bs (crcByte_lt hs hb2) (crcByte_lt hs hb) hbs heq
    exact hflip (crcByte_inj_byte hs hb2 hb this)
  | b :: bs, i + 1, k, s, hs, hd, hi, hk => by
    have hb : b < 2 ^ 32 := hd b (List.mem_cons_self b bs)
    have hbs : ∀ x ∈ bs, x < 2 ^ 32 := fun x hx => hd x (List.mem_cons_of_mem b hx)
    intro hcontra
    simp only [flipBit, List.set_cons_succ, List.getD_cons_succ] at hcontra
    have heq : crcUpdate (crcByte s b) (flipBit bs i k) = crcUpdate (crcByte s b) bs := by
      simpa [crcUpdate, flipBit] using hcontra
    exact crcUpdate_flipBit_ne bs i (crcByte_lt hs hb) hbs
      (by simpa using hi) hk heq

theorem crc32_flipBit_ne (data : List Nat) (i k : Nat)
    (hd : ∀ x ∈ data, x < 2 ^ 32) (hi : i < data.length) (hk : k < 32) :
    crc32 (flipBit data i k) ≠ crc32 data := by
  intro h
  have := Nat.xor_left_inj.mp h
  exact crcUpdate_flipBit_ne data i (by norm_num) hd hi hk this

theorem natToLe_length : ∀ (w n : Nat), (natToLe w n).length = w
  | 0, _ => rfl
  | w + 1, n => by simp [natToLe, natToLe_length w]

theorem natToLe_mem_lt : ∀ (w n : Nat), ∀ x ∈ natToLe w n, x < 256
  | 0, _, x, hx => by simp [natToLe] at hx
  | w + 1, n, x, hx => by
    simp only [natToLe, List.mem_cons] at hx
    rcases hx with h | h
    · omega
    · exact natToLe_mem_lt w (n / 256) x h

theorem leToNat_natToLe : ∀ (w n : Nat), n < 256 ^ w → leToNat (natToLe w n) = n
  | 0, n, h => by
    simp only [pow_zero, Nat.lt_one_iff] at h
    simp [natToLe, leToNat, h]
  | w + 1, n, h => by
    have hdiv : n / 256 < 256 ^ w := by
      rw [Nat.div_lt_iff_lt_mul (by norm_num)]
      calc n < 256 ^ (w + 1) := h
        _ = 256 ^ w * 256 := by ring
    simp only [natToLe, leToNat, leToNat_natToLe w (n / 256) hdiv]
    omega

theorem take_natToLe_append {w n : Nat} (rest : List Nat) :
    (natToLe w n ++ rest).take w = natToLe w n :=
  List.take_left' (natToLe_length w n)

theorem drop_natToLe_append {w n : Nat} (rest : List Nat) :
    (natToLe w n ++ rest).drop w = rest :=
  List.drop_left' (natToLe_length w n)

theorem serializeHeader_length (h : UnisonPacketHeader) :
    (serializeHeader h).length = 48 := by
  simp [serializeHeader, natToLe_length]

theorem serializeHeader_mem_lt (h : UnisonPacketHeader) :
    ∀ x ∈ serializeHeader h, x < 256 := by
  intro x hx
  simp only [serializeHeader, List.mem_append] at hx
  rcases hx with hx | hx | hx | hx | hx | hx | hx | hx | hx | hx <;>
    exact natToLe_mem_lt _ _ x hx

/-- Header round trip: parsing back a serialized wellformed header yields
field-by-field equality. -/
theorem parseHeader_serializeHeader (h : UnisonPacketHeader)
    (hwf : h.Wellformed) : parseHeader (serializeHeader h) = some h := by
  obtain ⟨h1, h2, h3, h4, h5, h6, h7, h8, h9, h10⟩ := hwf
  unfold parseHeader
  rw [if_pos ⟨serializeHeader_length h, by
    simpa [List.all_eq_true, decide_eq_true_eq] using serializeHeader_mem_lt h⟩]
  simp only [serializeHeader, take_natToLe_append, drop_natToLe_append]
  rw [List.take_of_length_le (le_of_eq (natToLe_length 8 h.padding)),
    leToNat_natToLe 1 h.version (by simpa using h1),
    leToNat_natToLe 1 h.packet_type (by simpa using h2),
    leToNat_natToLe 2 h.flags (by simpa using h3),
    leToNat_natToLe 4 h.payload_length (by simpa using h4),
    leToNat_natToLe 4 h.compressed_length (by simpa using h5),
    leToNat_natToLe 4 h.checksum (by simpa using h6),
    leToNat_natToLe 8 h.sequence_number (by simpa using h7),
    leToNat_natToLe 8 h.timestamp (by simpa using h8),
    leToNat_natToLe 8 h.stream_id (by simpa using h9),
    leToNat_natToLe 8 h.padding (by simpa using h10)]

theorem serialize_eq_compressed (compress : List Nat → List Nat)
    (hdr : UnisonPacketHeader) (p : List Nat)
    (hge : COMPRESSION_THRESHOLD ≤ p.length)
    (hlt : (compress p).length < p.length) :
    serialize compress hdr p =
      (compressedHeader compress hdr p,
       if 48 + (compress p).length > MAX_PACKET_SIZE then
         .error (.PacketTooLarge (48 + (compress p).length) MAX_PACKET_SIZE)
       else .ok (serializeHeader (compressedHeader compress hdr p) ++ compress p)) := by
  simp only [serialize, compressedHeader]
  rw [if_pos hge, if_pos hlt]
  by_cases hchk : hdr.checksum = 0 <;> simp [hchk, serializeHeader_length] <;>
    split <;> rfl

theorem serialize_eq_uncompressed (compress : List Nat → List Nat)
    (hdr : UnisonPacketHeader) (p : List Nat)
    (hcase : p.length < COMPRESSION_THRESHOLD ∨ p.length ≤ (compress p).length) :
    serialize compress hdr p =
      (uncompressedHeader hdr p,
       if 48 + p.length > MAX_PACKET_SIZE then
         .error (.PacketTooLarge (48 + p.length) MAX_PACKET_SIZE)
       else .ok (serializeHeader (uncompressedHeader hdr p) ++ p)) := by
  simp only [serialize, uncompressedHeader]
  rcases hcase with hcase | hcase
  · have hth : ¬ p.length ≥ COMPRESSION_THRESHOLD := by omega
    rw [if_neg hth]
    by_cases hchk : hdr.checksum = 0 <;> simp [hchk, serializeHeader_length] <;>
      split <;> rfl <;>
    split <;> rfl
  · by_cases hth : COMPRESSION_THRESHOLD ≤ p.length
    · have hnlt : ¬ (compress p).length < p.length := by omega
      rw [if_pos hth, if_neg hnlt]
      by_cases hchk : hdr.checksum = 0 <;> simp [hchk, serializeHeader_length] <;>
      split <;> rfl <;>
    split <;> rfl
    · rw [if_neg hth]
      by_cases hchk : hdr.checksum = 0 <;> simp [hchk, serializeHeader_length] <;>
      split <;> rfl <;>
    split <;> rfl

theorem crc32_lt (data : List Nat) (hd : ∀ x ∈ data, x < 2 ^ 32) :
    crc32 data < 2 ^ 32 :=
  Nat.xor_lt_two_pow (crcUpdate_lt data (by norm_num) hd) (by norm_num)

theorem flagsCompressed_lor (f : Nat) :
    flagsCompressed (f ||| FLAG_COMPRESSED) = true := by
  have hodd : (f ||| FLAG_COMPRESSED).testBit 0 = true := by
    simp [Nat.testBit_or, FLAG_COMPRESSED]
  simp only [Nat.testBit_zero, decide_eq_true_eq] at hodd
  simp [flagsCompressed, FLAG_COMPRESSED, Nat.and_one_is_mod, hodd]

theorem flagsCompressed_land (f : Nat) :
    flagsCompressed (f &&& (65535 - FLAG_COMPRESSED)) = false := by
  have h1 : (f &&& (65535 - FLAG_COMPRESSED)) &&& 1 = f &&& ((65535 - FLAG_COMPRESSED) &&& 1) :=
    Nat.and_assoc f (65535 - FLAG_COMPRESSED) 1
  have h2 : (65535 - FLAG_COMPRESSED) &&& 1 = 0 := by decide
  simp only [flagsCompressed, FLAG_COMPRESSED] at *
  simp [h1, h2]

theorem compressedHeader_wellformed (compress : List Nat → List Nat)
    (hdr : UnisonPacketHeader) (p : List Nat) (hwf : hdr.Wellformed)
    (hc : ∀ x ∈ compress p, x < 256) :
    (compressedHeader compress hdr p).Wellformed := by
  obtain ⟨h1, h2, h3, h4, h5, h6, h7, h8, h9, h10⟩ := hwf
  refine ⟨h1, h2, ?_, ?_, ?_, ?_, h7, h8, h9, h10⟩
  · exact Nat.or_lt_two_pow h3 (by norm_num [FLAG_COMPRESSED])
  · exact Nat.mod_lt _ (by norm_num)
  · exact Nat.mod_lt _ (by norm_num)
  · simp only [compressedHeader]
    split
    · exact crc32_lt _ (fun x hx => lt_trans (hc x hx) (by norm_num))
    · exact h6

theorem uncompressedHeader_wellformed (hdr : UnisonPacketHeader)
    (p : List Nat) (hwf : hdr.Wellformed) (hp : ∀ x ∈ p, x < 256) :
    (uncompressedHeader hdr p).Wellformed := by
  obtain ⟨h1, h2, h3, h4, h5, h6, h7, h8, h9, h10⟩ := hwf
  refine ⟨h1, h2, ?_, ?_, by simp [uncompressedHeader], ?_, h7, h8, h9, h10⟩
  · exact Nat.and_lt_two_pow _ (by norm_num [FLAG_COMPRESSED])
  · exact Nat.mod_lt _ (by norm_num)
  · simp only [uncompressedHeader]
    split
    · exact crc32_lt _ (fun x hx => lt_trans (hp x hx) (by norm_num))
    · exact h6

/-- Decoding the header part of a well-formed serialized packet returns
exactly the written header and the on-wire payload. -/
theorem deserializeHeader_of_serialized (h : UnisonPacketHeader)
    (payload : List Nat) (hwf : h.Wellformed) (hv : h.version = CURRENT_VERSION) :
    deserializeHeader (serializeHeader h ++ payload) = .ok (h, payload) := by
  have hlen : (serializeHeader h ++ payload).length = 48 + payload.length := by
    simp [serializeHeader_length]
  have htake : (serializeHeader h ++ payload).take 48 = serializeHeader h :=
    List.take_left' (serializeHeader_length h)
  have hdrop : (serializeHeader h ++ payload).drop 48 = payload :=
    List.drop_left' (serializeHeader_length h)
  unfold deserializeHeader
  rw [if_neg (by omega), htake, parseHeader_serializeHeader h hwf]
  have hcomp : h.isCompatible = true := by
    simp [UnisonPacketHeader.isCompatible, hv]
  rw [hdrop]
  simp [hcomp]

theorem deserializePayload_of_uncompressed
    (decompress : List Nat → Option (List Nat)) (hdr : UnisonPacketHeader)
    (p : List Nat) (hlen : p.length < 2 ^ 32) :
    deserializePayload decompress (uncompressedHeader hdr p) p = .ok p := by
  have hmod : p.length % 4294967296 = p.length := by omega
  by_cases hchk : hdr.checksum = 0 <;>
    simp [deserializePayload, uncompressedHeader, UnisonPacketHeader.actualPayloadSize,
      UnisonPacketHeader.hasChecksum, UnisonPacketHeader.isCompressed, hmod, hchk]

theorem deserializePayload_of_compressed (compress : List Nat → List Nat)
    (decompress : List Nat → Option (List Nat)) (hdr : UnisonPacketHeader)
    (p : List Nat) (hne : (compress p).length ≠ 0)
    (hclen : (compress p).length < 2 ^ 32)
    (hdec : decompress (compress p) = some p) :
    deserializePayload decompress (compressedHeader compress hdr p) (compress p) = .ok p := by
  have hmod : (compress p).length % 4294967296 = (compress p).length := by omega
  have hpos : 0 < (compress p).length := Nat.pos_of_ne_zero hne
  by_cases hchk : hdr.checksum = 0 <;>
    simp [deserializePayload, compressedHeader, UnisonPacketHeader.actualPayloadSize,
      UnisonPacketHeader.hasChecksum, UnisonPacketHeader.isCompressed,
      hmod, hchk, hpos, flagsCompressed_lor, hdec]

/-- C1 (amended): for every header with the current protocol version and
every payload at which `serialize` succeeds, deserializing the produced
packet returns the payload bytewise and a header field-by-field equal to
the header `serialize` wrote.  The zstd hypotheses state the documented
behaviour of the external compressor. -/
theorem serialize_roundtrip (compress : List Nat → List Nat)
    (decompress : List Nat → Option (List Nat))
    (hdr : UnisonPacketHeader) (p : List Nat)
    (hwf : hdr.Wellformed) (hv : hdr.version = CURRENT_VERSION)
    (hp : ∀ x ∈ p, x < 256) (hc : ∀ x ∈ compress p, x < 256)
    (hcne : compress p ≠ [])
    (hdec : decompress (compress p) = some p)
    (h' : UnisonPacketHeader) (w : List Nat)
    (hser : serialize compress hdr p = (h', .ok w)) :
    deserializeHeader w = .ok (h', w.drop 48) ∧
    deserializePayload decompress h' (w.drop 48) = .ok p := by
  by_cases hbranch : COMPRESSION_THRESHOLD ≤ p.length ∧ (compress p).length < p.length
  · obtain ⟨hge, hlt⟩ := hbranch
    rw [serialize_eq_compressed compress hdr p hge hlt] at hser
    by_cases hmax : 48 + (compress p).length > MAX_PACKET_SIZE
    · rw [if_pos hmax] at hser
      simp at hser
    · rw [if_neg hmax] at hser
      simp only [Prod.mk.injEq, Except.ok.injEq] at hser
      obtain ⟨hh, hw⟩ := hser
      subst hh
      subst hw
      have hwfc := compressedHeader_wellformed compress hdr p hwf hc
      have hvc : (compressedHeader compress hdr p).version = CURRENT_VERSION := hv
      have hdropw : (serializeHeader (compressedHeader compress hdr p) ++ compress p).drop 48 =
          compress p := List.drop_left' (serializeHeader_length _)
      refine ⟨?_, ?_⟩
      · rw [deserializeHeader_of_serialized _ _ hwfc hvc, hdropw]
      · rw [hdropw]
        refine deserializePayload_of_compressed compress decompress hdr p ?_ ?_ hdec
        · intro h0
          exact hcne (List.length_eq_zero.mp h0)
        · have : MAX_PACKET_SIZE = 16 * 1024 * 1024 := rfl
          omega
  · have hcase : p.length < COMPRESSION_THRESHOLD ∨ p.length ≤ (compress p).length := by
      rcases Nat.lt_or_ge p.length COMPRESSION_THRESHOLD with h | h
      · exact Or.inl h
      · right
        rcases Nat.lt_or_ge (compress p).length p.length with h2 | h2
        · exact absurd ⟨h, h2⟩ hbranch
        · exact h2
    rw [serialize_eq_uncompressed compress hdr p hcase] at hser
    by_cases hmax : 48 + p.length > MAX_PACKET_SIZE
    · rw [if_pos hmax] at hser
      simp at hser
    · rw [if_neg hmax] at hser
      simp only [Prod.mk.injEq, Except.ok.injEq] at hser
      obtain ⟨hh, hw⟩ := hser
      subst hh
      subst hw
      have hwfu := uncompressedHeader_wellformed hdr p hwf hp
      have hvu : (uncompressedHeader hdr p).version = CURRENT_VERSION := hv
      have hdropw : (serializeHeader (uncompressedHeader hdr p) ++ p).drop 48 = p :=
        List.drop_left' (serializeHeader_length _)
      refine ⟨?_, ?_⟩
      · rw [deserializeHeader_of_serialized _ _ hwfu hvu, hdropw]
      · rw [hdropw]
        refine deserializePayload_of_uncompressed decompress hdr p ?_
        have : MAX_PACKET_SIZE = 16 * 1024 * 1024 := rfl
        omega

/-- C1, counterexample: the claim quantifies over every header, but for the
concrete header with version 2 serialization succeeds while
`deserialize_header` fails with IncompatibleVersion, so decoding does not
succeed and no payload is returned. -/
theorem C1_counterexample :
    (serialize id c1cexHeader [1]).2 = .ok c1cexWire ∧
    deserializeHeader c1cexWire = .error (.IncompatibleVersion 2) := by
  constructor <;> rfl

/-- C1 (amended: the header must carry the current protocol version 1):
for every version-1 header and every payload at which `serialize`
succeeds — including the empty payload — deserializing the produced
packet yields the payload bytewise and a header field-by-field equal to
the header `serialize` wrote.  The hypotheses on `compress`/`decompress`
state the documented behaviour of the external zstd crate. -/
theorem C1_roundtrip (compress : List Nat → List Nat)
    (decompress : List Nat → Option (List Nat))
    (hdr : UnisonPacketHeader) (p : List Nat)
    (hwf : hdr.Wellformed) (hv : hdr.version = CURRENT_VERSION)
    (hp : ∀ x ∈ p, x < 256) (hc : ∀ x ∈ compress p, x < 256)
    (hcne : compress p ≠ [])
    (hdec : decompress (compress p) = some p)
    (h' : UnisonPacketHeader) (w : List Nat)
    (hser : serialize compress hdr p = (h', .ok w)) :
    deserializeHeader w = .ok (h', w.drop 48) ∧
    deserializePayload decompress h' (w.drop 48) = .ok p :=
  serialize_roundtrip compress decompress hdr p hwf hv hp hc hcne hdec h' w hser

/-- C1 witness: the empty payload round-trips through a concrete
version-1 header. -/
theorem C1_roundtrip_witness :
    serialize (fun _ => [9]) c1witHeader [] = (c1witHeader, .ok c1witWire) ∧
    deserializeHeader c1witWire = .ok (c1witHeader, []) ∧
    deserializePayload (fun _ => some []) c1witHeader [] = .ok [] := by
  have h := C1_roundtrip (fun _ => [9]) (fun _ => some []) c1witHeader []
    (by unfold UnisonPacketHeader.Wellformed; decide) rfl (by simp)
    (by decide) (by decide) rfl c1witHeader c1witWire rfl
  exact ⟨rfl, h.1, h.2⟩

/-- The encoder always writes `payload_length = n % 2 ^ 32` (`as u32`). -/
theorem serialize_payload_length (compress : List Nat → List Nat)
    (hdr : UnisonPacketHeader) (p : List Nat) :
    (serialize compress hdr p).1.payload_length = p.length % 2 ^ 32 := by
  by_cases hge : COMPRESSION_THRESHOLD ≤ p.length
  · by_cases hlt : (compress p).length < p.length
    · rw [serialize_eq_compressed compress hdr p hge hlt]; rfl
    · rw [serialize_eq_uncompressed compress hdr p (Or.inr (by omega))]; rfl
  · rw [serialize_eq_uncompressed compress hdr p (Or.inl (by omega))]; rfl

/-- C2, counterexample: `payload_size as u32` truncates, so for the
explicit payload of length 2 ^ 32 (with a compressor that shrinks it so
that serialization succeeds) the encoder sets payload_length to 0, not to
the serialized size n = 2 ^ 32. -/
theorem C2_counterexample :
    (serialize (fun _ => [0]) c2cexHeader (List.replicate (2 ^ 32) 0)).1.payload_length = 0 ∧
    (List.replicate (2 ^ 32) (0 : Nat)).length = 2 ^ 32 ∧
    exceptIsOk (serialize (fun _ => [0]) c2cexHeader (List.replicate (2 ^ 32) 0)).2 = true ∧
    (0 : Nat) ≠ 2 ^ 32 := by
  have hlen : (List.replicate (2 ^ 32) (0 : Nat)).length = 2 ^ 32 :=
    List.length_replicate _ _
  have heq := serialize_eq_compressed (fun _ => [0]) c2cexHeader
    (List.replicate (2 ^ 32) 0)
    (by rw [hlen]; norm_num [COMPRESSION_THRESHOLD])
    (by rw [hlen]; norm_num)
  refine ⟨?_, hlen, ?_, by norm_num⟩
  · have h := serialize_payload_length (fun _ => [0]) c2cexHeader
      (List.replicate (2 ^ 32) 0)
    rw [hlen] at h
    rw [h]
    exact Nat.mod_self _
  · have h2 : (serialize (fun _ => [0]) c2cexHeader (List.replicate (2 ^ 32) 0)).2 =
        .ok (serializeHeader (compressedHeader (fun _ => [0]) c2cexHeader
          (List.replicate (2 ^ 32) 0)) ++ [0]) := by
      have := congrArg Prod.snd heq
      rw [this]
      rw [if_neg (by norm_num [MAX_PACKET_SIZE])]
    rw [h2]
    rfl

/-- C2 (amended: payload_length and compressed_length are set modulo
2 ^ 32, the u32 truncation; for sizes below 2 ^ 32 this is exactly the
size): the encoder sets payload_length from the payload size; when the
size reaches the 2048-byte threshold and compression strictly shrinks it,
the on-wire payload is the compressed bytes, compressed_length is their
size and COMPRESSED is set; otherwise (below threshold, or no strict
shrink including ties) the raw bytes go on the wire, compressed_length is
0 and COMPRESSED is clear.  Size threshold - 1 is never compressed; size
threshold is compressed iff compression shrinks. -/
theorem C2_encoder_contract (compress : List Nat → List Nat)
    (hdr : UnisonPacketHeader) (p : List Nat) :
    (serialize compress hdr p).1.payload_length = p.length % 2 ^ 32 ∧
    (COMPRESSION_THRESHOLD ≤ p.length → (compress p).length < p.length →
      (serialize compress hdr p).1.compressed_length = (compress p).length % 2 ^ 32 ∧
      flagsCompressed (serialize compress hdr p).1.flags = true ∧
      ∀ w, (serialize compress hdr p).2 = .ok w →
        w = serializeHeader (serialize compress hdr p).1 ++ compress p) ∧
    (p.length < COMPRESSION_THRESHOLD ∨ p.length ≤ (compress p).length →
      (serialize compress hdr p).1.compressed_length = 0 ∧
      flagsCompressed (serialize compress hdr p).1.flags = false ∧
      ∀ w, (serialize compress hdr p).2 = .ok w →
        w = serializeHeader (serialize compress hdr p).1 ++ p) ∧
    (p.length = COMPRESSION_THRESHOLD - 1 →
      (serialize compress hdr p).1.compressed_length = 0 ∧
      flagsCompressed (serialize compress hdr p).1.flags = false) ∧
    (p.length = COMPRESSION_THRESHOLD →
      (flagsCompressed (serialize compress hdr p).1.flags = true ↔
        (compress p).length < p.length)) := by
  have huncomp : p.length < COMPRESSION_THRESHOLD ∨ p.length ≤ (compress p).length →
      (serialize compress hdr p).1.compressed_length = 0 ∧
      flagsCompressed (serialize compress hdr p).1.flags = false ∧
      ∀ w, (serialize compress hdr p).2 = .ok w →
        w = serializeHeader (serialize compress hdr p).1 ++ p := by
    intro hcase
    rw [serialize_eq_uncompressed compress hdr p hcase]
    refine ⟨by simp [uncompressedHeader], by simp [uncompressedHeader, flagsCompressed_land], ?_⟩
    intro w hw
    split at hw
    · exact absurd hw (by simp)
    · simp only [Except.ok.injEq] at hw
      exact hw.symm
  have hcomp : COMPRESSION_THRESHOLD ≤ p.length → (compress p).length < p.length →
      (serialize compress hdr p).1.compressed_length = (compress p).length % 2 ^ 32 ∧
      flagsCompressed (serialize compress hdr p).1.flags = true ∧
      ∀ w, (serialize compress hdr p).2 = .ok w →
        w = serializeHeader (serialize compress hdr p).1 ++ compress p := by
    intro hge hlt
    rw [serialize_eq_compressed compress hdr p hge hlt]
    refine ⟨by simp [compressedHeader], by simp [compressedHeader, flagsCompressed_lor], ?_⟩
    intro w hw
    split at hw
    · exact absurd hw (by simp)
    · simp only [Except.ok.injEq] at hw
      exact hw.symm
  refine ⟨?_, hcomp, huncomp, ?_, ?_⟩
  · by_cases hge : COMPRESSION_THRESHOLD ≤ p.length
    · by_cases hlt : (compress p).length < p.length
      · rw [serialize_eq_compressed compress hdr p hge hlt]
        simp [compressedHeader]
      · rw [serialize_eq_uncompressed compress hdr p (Or.inr (by omega))]
        simp [uncompressedHeader]
    · rw [serialize_eq_uncompressed compress hdr p (Or.inl (by omega))]
      simp [uncompressedHeader]
  · intro hlen
    have h := huncomp (Or.inl (by unfold COMPRESSION_THRESHOLD at *; omega))
    exact ⟨h.1, h.2.1⟩
  · intro hlen
    by_cases hlt : (compress p).length < p.length
    · have h := hcomp (by omega) hlt
      simp [h.2.1, hlt]
    · have h := huncomp (Or.inr (by omega))
      simp [h.2.1, hlt]

/-- C2 witness: a 2048-byte payload with a compressor shrinking it to 3
bytes is compressed, the flag is set, and payload_length is 2048. -/
theorem C2_encoder_contract_witness :
    (serialize (fun _ => [1, 2, 3]) c2witHeader c2witPayload).1.payload_length = 2048 ∧
    (serialize (fun _ => [1, 2, 3]) c2witHeader c2witPayload).1.compressed_length = 3 ∧
    flagsCompressed (serialize (fun _ => [1, 2, 3]) c2witHeader c2witPayload).1.flags = true := by
  have h := C2_encoder_contract (fun _ => [1, 2, 3]) c2witHeader c2witPayload
  have hlen : c2witPayload.length = 2048 := List.length_replicate _ _
  have hc := h.2.1 (by rw [hlen]; norm_num [COMPRESSION_THRESHOLD])
    (by rw [hlen]; norm_num)
  refine ⟨?_, ?_, hc.2.1⟩
  · rw [h.1, hlen]
    norm_num
  · rw [hc.1]
    norm_num

/-- C3: every byte buffer of length at least 48 whose parsed header has a
version different from 1 fails `deserialize_header` with
IncompatibleVersion carrying that version, and no pair is returned. -/
theorem C3_incompatible_version (bytes : List Nat) (hdr : UnisonPacketHeader)
    (hlen : 48 ≤ bytes.length)
    (hparse : parseHeader (bytes.take 48) = some hdr)
    (hver : hdr.version ≠ CURRENT_VERSION) :
    deserializeHeader bytes = .error (.IncompatibleVersion hdr.version) := by
  unfold deserializeHeader
  rw [if_neg (by omega), hparse]
  have hcomp : hdr.isCompatible = false := by
    simp [UnisonPacketHeader.isCompatible, hver]
  simp [hcomp]

/-- C3 witness: a concrete 48-byte buffer with header version 2 is
rejected with IncompatibleVersion 2. -/
theorem C3_incompatible_version_witness :
    48 ≤ c3witBytes.length ∧
    parseHeader (c3witBytes.take 48) = some c3witHeader ∧
    c3witHeader.version ≠ CURRENT_VERSION ∧
    deserializeHeader c3witBytes = .error (.IncompatibleVersion 2) := by
  refine ⟨by decide, by decide, by decide, ?_⟩
  exact C3_incompatible_version c3witBytes c3witHeader (by decide) (by decide)
    (by decide)

/-- C5, counterexample: a decoded header whose payload_length exceeds the
configured maximum (16 MiB) is not rejected: `deserialize_header` returns
the (header, payload) pair and `from_bytes` accepts the buffer, because
only the total buffer length is ever compared against the maximum. -/
theorem C5_counterexample :
    c5cexHeader.payload_length = DEFAULT_MAX_PAYLOAD_SIZE + 1 ∧
    deserializeHeader c5cexBytes = .ok (c5cexHeader, []) ∧
    fromBytes c5cexBytes = .ok c5cexBytes := by
  refine ⟨rfl, by rfl, by rfl⟩

/-- C5 (amended): the decoder bounds only the total packet size:
`from_bytes` fails with PacketTooLarge exactly when the whole buffer is
longer than the configured maximum payload size (16 MiB default, taken
from the spec since src/packet/config.rs is absent); the header fields
payload_length / compressed_length are not compared against the maximum. -/
theorem C5_total_size_check (hdr : UnisonPacketHeader) (rest : List Nat)
    (hwf : hdr.Wellformed) (hv : hdr.version = CURRENT_VERSION)
    (hbig : DEFAULT_MAX_PAYLOAD_SIZE < 48 + rest.length) :
    fromBytes (serializeHeader hdr ++ rest) =
      .error (.PacketTooLarge (48 + rest.length) DEFAULT_MAX_PAYLOAD_SIZE) := by
  unfold fromBytes
  rw [deserializeHeader_of_serialized hdr rest hwf hv]
  have hcomp : hdr.isCompatible = true := by
    simp [UnisonPacketHeader.isCompatible, hv]
  have hlen : (serializeHeader hdr ++ rest).length = 48 + rest.length := by
    simp [serializeHeader_length]
  simp [hcomp, hlen, hbig]

/-- C5 witness: a buffer 48 bytes longer than the maximum is rejected
with PacketTooLarge. -/
theorem C5_total_size_check_witness :
    fromBytes (serializeHeader c5witHeader ++ List.replicate DEFAULT_MAX_PAYLOAD_SIZE 0) =
      .error (.PacketTooLarge (48 + DEFAULT_MAX_PAYLOAD_SIZE) DEFAULT_MAX_PAYLOAD_SIZE) := by
  have h := C5_total_size_check c5witHeader (List.replicate DEFAULT_MAX_PAYLOAD_SIZE 0)
    (by unfold UnisonPacketHeader.Wellformed; decide) rfl
    (by rw [List.length_replicate]; norm_num [DEFAULT_MAX_PAYLOAD_SIZE])
  rw [List.length_replicate] at h
  exact h

/-- Decoding a tampered payload of the right length under a header whose
stored checksum is the CRC32 of the original payload fails with
ChecksumMismatch. -/
theorem deserializePayload_flip (decompress : List Nat → Option (List Nat))
    (h' : UnisonPacketHeader) (final : List Nat) (i k : Nat)
    (hact : h'.actualPayloadSize = final.length)
    (hchk : h'.checksum = crc32 final) (hchkne : h'.checksum ≠ 0)
    (hbytes : ∀ x ∈ final, x < 2 ^ 32) (hi : i < final.length) (hk : k < 32) :
    deserializePayload decompress h' (flipBit final i k) =
      .error (.ChecksumMismatch h'.checksum (crc32 (flipBit final i k))) ∧
    crc32 (flipBit final i k) ≠ h'.checksum := by
  have hne : crc32 (flipBit final i k) ≠ crc32 final :=
    crc32_flipBit_ne final i k hbytes hi hk
  have hlen : (flipBit final i k).length = final.length := flipBit_length final i k
  constructor
  · unfold deserializePayload
    rw [if_neg (by rw [hlen, hact]; exact fun h => h rfl)]
    rw [if_pos (by
      simp only [UnisonPacketHeader.hasChecksum, Bool.and_eq_true, bne_iff_ne]
      exact ⟨hchkne, by rw [hchk]; exact hne⟩)]
  · rw [hchk]
    exact hne

/-- C4: flipping any single bit of the on-wire payload of a packet whose
written header has a nonzero checksum field makes `deserialize_payload`
fail with ChecksumMismatch reporting the stored checksum as expected and
the recomputed CRC32 as actual; no payload is returned. -/
theorem C4_checksum_tamper (compress : List Nat → List Nat)
    (decompress : List Nat → Option (List Nat))
    (hdr : UnisonPacketHeader) (p : List Nat) (i k : Nat)
    (hp : ∀ x ∈ p, x < 256) (hc : ∀ x ∈ compress p, x < 256)
    (hcne : compress p ≠ [])
    (h' : UnisonPacketHeader) (w : List Nat)
    (hser : serialize compress hdr p = (h', .ok w))
    (hchkne : h'.checksum ≠ 0)
    (hi : i < (w.drop 48).length) (hk : k < 8) :
    deserializePayload decompress h' (flipBit (w.drop 48) i k) =
      .error (.ChecksumMismatch h'.checksum (crc32 (flipBit (w.drop 48) i k))) ∧
    crc32 (flipBit (w.drop 48) i k) ≠ h'.checksum ∧
    ∀ d, deserializePayload decompress h' (flipBit (w.drop 48) i k) ≠ .ok d := by
  have hk32 : k < 32 := by omega
  by_cases hbranch : COMPRESSION_THRESHOLD ≤ p.length ∧ (compress p).length < p.length
  · obtain ⟨hge, hlt⟩ := hbranch
    rw [serialize_eq_compressed compress hdr p hge hlt] at hser
    by_cases hmax : 48 + (compress p).length > MAX_PACKET_SIZE
    · rw [if_pos hmax] at hser
      simp at hser
    · rw [if_neg hmax] at hser
      simp only [Prod.mk.injEq, Except.ok.injEq] at hser
      obtain ⟨hh, hw⟩ := hser
      subst hh
      subst hw
      have hdropw : (serializeHeader (compressedHeader compress hdr p) ++ compress p).drop 48 =
          compress p := List.drop_left' (serializeHeader_length _)
      rw [hdropw] at hi ⊢
      have hclen : (compress p).length < 2 ^ 32 := by
        have : MAX_PACKET_SIZE = 16 * 1024 * 1024 := rfl
        omega
      have hne0 : (compress p).length ≠ 0 := fun h0 => hcne (List.length_eq_zero.mp h0)
      have hin : hdr.checksum ≠ 0 := by
        intro h0
        exact hchkne (by simp [compressedHeader, h0])
      have hchk : (compressedHeader compress hdr p).checksum = crc32 (compress p) := by
        simp [compressedHeader, hin]
      have hmod : (compress p).length % 4294967296 = (compress p).length := by omega
      have hact : (compressedHeader compress hdr p).actualPayloadSize = (compress p).length := by
        simp [compressedHeader, UnisonPacketHeader.actualPayloadSize, hmod,
          Nat.pos_of_ne_zero hne0]
      have hmain := deserializePayload_flip decompress (compressedHeader compress hdr p)
        (compress p) i k hact hchk hchkne
        (fun x hx => lt_trans (hc x hx) (by norm_num)) hi hk32
      refine ⟨hmain.1, hmain.2, ?_⟩
      intro d
      rw [hmain.1]
      simp
  · have hcase : p.length < COMPRESSION_THRESHOLD ∨ p.length ≤ (compress p).length := by
      rcases Nat.lt_or_ge p.length COMPRESSION_THRESHOLD with h | h
      · exact Or.inl h
      · right
        rcases Nat.lt_or_ge (compress p).length p.length with h2 | h2
        · exact absurd ⟨h, h2⟩ hbranch
        · exact h2
    rw [serialize_eq_uncompressed compress hdr p hcase] at hser
    by_cases hmax : 48 + p.length > MAX_PACKET_SIZE
    · rw [if_pos hmax] at hser
      simp at hser
    · rw [if_neg hmax] at hser
      simp only [Prod.mk.injEq, Except.ok.injEq] at hser
      obtain ⟨hh, hw⟩ := hser
      subst hh
      subst hw
      have hdropw : (serializeHeader (uncompressedHeader hdr p) ++ p).drop 48 = p :=
        List.drop_left' (serializeHeader_length _)
      rw [hdropw] at hi ⊢
      have hplen : p.length < 2 ^ 32 := by
        have : MAX_PACKET_SIZE = 16 * 1024 * 1024 := rfl
        omega
      have hin : hdr.checksum ≠ 0 := by
        intro h0
        exact hchkne (by simp [uncompressedHeader, h0])
      have hchk : (uncompressedHeader hdr p).checksum = crc32 p := by
        simp [uncompressedHeader, hin]
      have hmod : p.length % 4294967296 = p.length := by omega
      have hact : (uncompressedHeader hdr p).actualPayloadSize = p.length := by
        simp [uncompressedHeader, UnisonPacketHeader.actualPayloadSize, hmod]
      have hmain := deserializePayload_flip decompress (uncompressedHeader hdr p)
        p i k hact hchk hchkne
        (fun x hx => lt_trans (hp x hx) (by norm_num)) hi hk32
      refine ⟨hmain.1, hmain.2, ?_⟩
      intro d
      rw [hmain.1]
      simp

/-- C4 witness: flipping bit 0 of the first on-wire payload byte of a
concrete checksummed packet yields ChecksumMismatch. -/
theorem C4_checksum_tamper_witness :
    deserializePayload (fun _ => none) c4witResult.1 (flipBit (c4witWire.drop 48) 0 0) =
      .error (.ChecksumMismatch c4witResult.1.checksum
        (crc32 (flipBit (c4witWire.drop 48) 0 0))) ∧
    crc32 (flipBit (c4witWire.drop 48) 0 0) ≠ c4witResult.1.checksum := by
  have h := C4_checksum_tamper (fun l => 0 :: l) (fun _ => none) c4witHeader [1, 2, 3]
    0 0 (by decide) (by decide) (by decide) c4witResult.1 c4witWire rfl
    (by decide) (by decide) (by decide)
  exact ⟨h.1, h.2.1⟩

theorem requestReply_id (s : ServerState) (req : ProtocolMessage) :
    (requestReply s req).id = req.id := by
  unfold requestReply
  split <;> rfl

theorem requestReply_method (s : ServerState) (req : ProtocolMessage) :
    (requestReply s req).method = req.method := by
  unfold requestReply
  split <;> rfl

theorem requestReply_type (s : ServerState) (req : ProtocolMessage) :
    (requestReply s req).msg_type = .Response ∨
    (requestReply s req).msg_type = .Error := by
  unfold requestReply
  split
  · exact Or.inl rfl
  · exact Or.inr rfl

/-- C6: a Request for a method with no registered unary handler produces
an Error reply whose payload field "message" is exactly
`Method not found: <method>`; the client surfaces it as a Protocol error
with that text, and no handler is invoked. -/
theorem C6_method_not_found (s : ServerState) (mid : Nat) (method : String)
    (payload : Json)
    (h1 : s.unison_handlers.lookup method = none)
    (h2 : s.call_handlers.lookup method = none) :
    (requestReply s ⟨mid, method, .Request, payload⟩).msg_type = .Error ∧
    (requestReply s ⟨mid, method, .Request, payload⟩).payload.getStr "message" =
      some ("Method not found: " ++ method) ∧
    clientInterpretReply (requestReply s ⟨mid, method, .Request, payload⟩) =
      .error (.Protocol ("Method not found: " ++ method)) ∧
    handleCallInvoked s method = [] := by
  have hcall : handleCall s method payload = .error ("Method not found: " ++ method) := by
    unfold handleCall
    rw [h1, h2]
  have hreply : requestReply s ⟨mid, method, .Request, payload⟩ =
      { id := mid, method := method, msg_type := .Error,
        payload := .obj [("message", .str ("Method not found: " ++ method))] } := by
    unfold requestReply
    rw [hcall]
  rw [hreply]
  refine ⟨rfl, ?_, ?_, ?_⟩
  · simp [Json.getStr, List.lookup]
  · simp [clientInterpretReply, jsonMessageOr, Json.getStr, List.lookup]
  · unfold handleCallInvoked
    rw [h1, h2]

/-- C6 witness: calling "no_such_method" on an empty server. -/
theorem C6_method_not_found_witness :
    (requestReply emptyServer ⟨1, "no_such_method", .Request, Json.null⟩).msg_type = .Error ∧
    (requestReply emptyServer ⟨1, "no_such_method", .Request, Json.null⟩).payload.getStr
      "message" = some ("Method not found: " ++ "no_such_method") ∧
    clientInterpretReply (requestReply emptyServer ⟨1, "no_such_method", .Request, Json.null⟩) =
      .error (.Protocol ("Method not found: " ++ "no_such_method")) ∧
    handleCallInvoked emptyServer "no_such_method" = [] :=
  C6_method_not_found emptyServer 1 "no_such_method" Json.null rfl rfl

theorem buildRequests_ids_nodup : ∀ (calls : List (String × Json)) (c0 : Nat),
    ((buildRequests c0 calls).map (·.id)).Nodup ∧
    ∀ x ∈ (buildRequests c0 calls).map (·.id), c0 ≤ x
  | [], _ => ⟨List.nodup_nil, by simp [buildRequests]⟩
  | (m, p) :: rest, c0 => by
    obtain ⟨hnd, hge⟩ := buildRequests_ids_nodup rest (c0 + 1)
    constructor
    · simp only [buildRequests, List.map_cons]
      refine List.nodup_cons.mpr ⟨?_, hnd⟩
      intro hmem
      have := hge c0 hmem
      omega
    · intro x hx
      simp only [buildRequests, List.map_cons, List.mem_cons] at hx
      rcases hx with rfl | hx
      · exact le_refl x
      · have := hge x hx
        omega

/-- C8: every reply the server produces to a Request carries the same id
and method as the request and is a Response or an Error; within a single
client session the generated ids are fresh, so no two replies share a
correlation id and each Request gets exactly one reply. -/
theorem C8_correlation (srv : ServerState) (c0 : Nat)
    (calls : List (String × Json)) :
    ((buildRequests c0 calls).map (requestReply srv)).map (·.id) =
      (buildRequests c0 calls).map (·.id) ∧
    ((buildRequests c0 calls).map (requestReply srv)).map (·.method) =
      (buildRequests c0 calls).map (·.method) ∧
    (∀ r ∈ (buildRequests c0 calls).map (requestReply srv),
      r.msg_type = .Response ∨ r.msg_type = .Error) ∧
    (((buildRequests c0 calls).map (requestReply srv)).map (·.id)).Nodup := by
  have hid : ((buildRequests c0 calls).map (requestReply srv)).map (·.id) =
      (buildRequests c0 calls).map (·.id) := by
    rw [List.map_map]
    exact List.map_congr_left (fun req _ => requestReply_id srv req)
  refine ⟨hid, ?_, ?_, ?_⟩
  · rw [List.map_map]
    exact List.map_congr_left (fun req _ => requestReply_method srv req)
  · intro r hr
    rw [List.mem_map] at hr
    obtain ⟨req, _, rfl⟩ := hr
    exact requestReply_type srv req
  · rw [hid]
    exact (buildRequests_ids_nodup calls c0).1

/-- C7: after `close()` the duplex handle is inactive, every subsequent
send or receive fails with a Connection error, and a second `close()` on
a successfully closed handle succeeds regardless of the transport. -/
theorem C7_close_semantics (s : UnisonStreamState) (f₁ st₁ : Bool) :
    streamIsActive (streamClose s f₁ st₁).2 = false ∧
    (∀ v w, (streamSend (streamClose s f₁ st₁).2 v w).1 =
      .error (.Connection "Stream is not active")) ∧
    (∀ rr parse, (streamReceive (streamClose s f₁ st₁).2 rr parse).1 =
      .error (.Connection "Stream is not active")) ∧
    ((streamClose s f₁ st₁).1 = .ok () →
      ∀ f₂ st₂, streamClose (streamClose s f₁ st₁).2 f₂ st₂ =
        (.ok (), (streamClose s f₁ st₁).2)) := by
  rcases s with ⟨sid, m, snd, rcv, act⟩
  cases snd <;> cases rcv <;> cases f₁ <;> cases st₁ <;>
    simp [streamClose, closeRecv, streamIsActive, streamSend, streamReceive]

/-- C7 witness: closing a concrete open stream, then sending, receiving
and closing again. -/
theorem C7_close_semantics_witness :
    streamIsActive (streamClose c7witStream true true).2 = false ∧
    (streamSend (streamClose c7witStream true true).2 Json.null true).1 =
      .error (.Connection "Stream is not active") ∧
    (streamReceive (streamClose c7witStream true true).2 (some [1]) (fun _ => none)).1 =
      .error (.Connection "Stream is not active") ∧
    streamClose (streamClose c7witStream true true).2 false false =
      (.ok (), (streamClose c7witStream true true).2) := by
  have h := C7_close_semantics c7witStream true true
  exact ⟨h.1, h.2.1 Json.null true, h.2.2.1 (some [1]) (fun _ => none),
    h.2.2.2 rfl false false⟩

/-- C9, counterexample: immediately after `register_handler` returns, the
spawned insert has not run, so a dispatch of the method fails with
`Method not found`; only after the spawned task runs does dispatch find
the handler. -/
theorem C9_counterexample :
    handleCall (registerHandler emptyServer "echo" Except.ok) "echo" Json.null =
      .error ("Method not found: " ++ "echo") ∧
    handleCall (applyPending (registerHandler emptyServer "echo" Except.ok))
      "echo" Json.null = .ok Json.null := by
  constructor <;> rfl

/-- C9 (amended: registration is published by a spawned task, not
synchronously; once that task has run): applying the pending insert of
`register_handler(m, h)` yields exactly the state of a pre-bind
registration of `h`, so a dispatch of `m` after the insert behaves
identically to one against a server that registered `h` before binding. -/
theorem C9_registration (s : ServerState) (m : String) (h : UnisonHandler)
    (p : Json) (hpend : s.pending_unison = []) :
    applyPending (registerHandler s m h) = preBindRegister s m h ∧
    handleCall (applyPending (registerHandler s m h)) m p =
      handleCall (preBindRegister s m h) m p := by
  have heq : applyPending (registerHandler s m h) = preBindRegister s m h := by
    unfold applyPending registerHandler preBindRegister
    rw [hpend]
    simp
  exact ⟨heq, by rw [heq]⟩

/-- C9 witness: registering and dispatching on a concrete empty server. -/
theorem C9_registration_witness :
    applyPending (registerHandler emptyServer "ping" Except.ok) =
      preBindRegister emptyServer "ping" Except.ok ∧
    handleCall (applyPending (registerHandler emptyServer "ping" Except.ok))
      "ping" Json.null =
      handleCall (preBindRegister emptyServer "ping" Except.ok) "ping" Json.null :=
  C9_registration emptyServer "ping" Except.ok Json.null rfl

/-- C8 witness: a concrete two-call session against the empty server
yields replies with the fresh ids 5 and 6 and no duplicate id. -/
theorem C8_correlation_witness :
    ((buildRequests 5 [("ping", Json.null), ("pong", Json.null)]).map
      (requestReply emptyServer)).map (·.id) =
      (buildRequests 5 [("ping", Json.null), ("pong", Json.null)]).map (·.id) ∧
    (((buildRequests 5 [("ping", Json.null), ("pong", Json.null)]).map
      (requestReply emptyServer)).map (·.id)).Nodup := by
  have h := C8_correlation emptyServer 5 [("ping", Json.null), ("pong", Json.null)]
  exact ⟨h.1, h.2.2.2⟩

/-- C10: `ProtocolClient::is_connected` (UnisonClient impl) returns false
in every state — also when the underlying QUIC transport is actually
connected. -/
theorem C10_is_connected_always_false :
    (∀ s : ProtocolClientState, protocolClientIsConnected s = false) ∧
    quicClientIsConnected ⟨true⟩ = true ∧
    protocolClientIsConnected ⟨true⟩ = false :=
  ⟨fun _ => rfl, rfl, rfl⟩

end Unison

